import Mathlib

/-!
Verification of the `ws-utils` HTTP client toolkit (query codec, URL
utilities, route registry, Fetcher retry loop) against its specification.

Strings are modelled as `List Char` (named `Str` below); JavaScript string
operations become list operations.  The modelled character domain excludes
`%`, `+`, `#` so that WHATWG percent-encoding/decoding is the identity; all
concrete inputs used by the claims stay inside this domain.
-/

/-- Character-list model of JavaScript strings. -/
abbrev Str := List Char

/-- Coercion helper from Lean string literals into the model. -/
def ofStr (s : String) : Str := s.toList

/-! ## URL utilities (`src/packages/common/http/src/http/url.ts`) -/

/-- Test for the default `urlJoin` separator `/`. -/
def isSepChar (c : Char) : Bool := c = '/'

/-- Model of `part.replace(new RegExp("^" + escapedSep + "+"), '')`:
strips a leading run of separators. -/
def stripLeadingSep (s : Str) : Str := s.dropWhile isSepChar

/-- Model of `part.replace(new RegExp(escapedSep + "+$"), '')`:
strips a trailing run of separators. -/
def stripTrailingSep (s : Str) : Str := (s.reverse.dropWhile isSepChar).reverse

/-- Model of `part.replace(new RegExp("^" + sep + "+|" + sep + "+$", 'g'), '')`:
strips separator runs from both edges. -/
def stripBothSep (s : Str) : Str := stripTrailingSep (stripLeadingSep s)

/-- Sanitization of all parts after the first: interior parts are stripped on
both edges, the last part on its leading edge (`index === parts.length - 1`). -/
def sanitizeRest : List Str → List Str
  | [] => []
  | [p] => [stripLeadingSep p]
  | p :: ps => stripBothSep p :: sanitizeRest ps

/-- Sanitization of the filtered parts list: the first part is stripped on its
trailing edge (the `index === 0` branch fires first, also for a singleton),
the rest per `sanitizeRest`. -/
def sanitizeParts : List Str → List Str
  | [] => []
  | p :: ps => stripTrailingSep p :: sanitizeRest ps

/-- Model of `if (!result.endsWith(sep)) result += sep`. -/
def withTrailingSep (s : Str) : Str :=
  if s.getLast? = some '/' then s else s ++ ['/']

/-- Model of `urlJoin(parts, options)` from `url.ts` with the default
separator `/`: filters out empty (falsy) segments, sanitizes edges by
position, joins with `/`, then enforces the trailing-slash policy
(`trailingSlash` defaults to `true`). -/
def urlJoin (parts : List Str) (trailingSlash : Bool := true) : Str :=
  let parts := parts.filter (fun v => v ≠ [])
  let result := List.intercalate ['/'] (sanitizeParts parts)
  if trailingSlash then withTrailingSep result
  else if result.getLast? = some '/' then result.dropLast else result

example : urlJoin [ofStr "https://example.com", ofStr "api", ofStr "v1"]
    = ofStr "https://example.com/api/v1/" := by decide

example : urlJoin [ofStr "a", ofStr "/"] = ofStr "a/" := by decide

example : urlJoin [ofStr "a", ofStr "/", ofStr "b"] = ofStr "a//b/" := by decide

/-! ## Path templating (`generatePath` in `url.ts`) -/

/-- Decidable equality for `Except`, used to evaluate modelled throwing
functions at concrete inputs. -/
instance exceptDecEq {ε α : Type} [DecidableEq ε] [DecidableEq α] :
    DecidableEq (Except ε α)
  | .error e, .error f =>
    if h : e = f then .isTrue (by rw [h])
    else .isFalse (by intro hh; cases hh; exact h rfl)
  | .error _, .ok _ => .isFalse (by intro h; cases h)
  | .ok _, .error _ => .isFalse (by intro h; cases h)
  | .ok a, .ok b =>
    if h : a = b then .isTrue (by rw [h])
    else .isFalse (by intro hh; cases hh; exact h rfl)

/-- Split on every single separator character (JavaScript `split('/')`);
the result is always nonempty. -/
def splitOnSep : Str → List Str
  | [] => [[]]
  | c :: rest =>
    let r := splitOnSep rest
    if isSepChar c then [] :: r
    else
      match r with
      | [] => [[c]]
      | h :: t => (c :: h) :: t

/-- Collapse of interior empty tokens: removes empty strings except the final
token, turning a single-separator split into a separator-run split. -/
def collapseMid : List Str → List Str
  | [] => []
  | [x] => [x]
  | x :: xs => if x = [] then collapseMid xs else x :: collapseMid xs

/-- Model of JavaScript `path.split(/\/+/)`: like `split('/')` but a run of
consecutive separators acts as one boundary, keeping a single empty token
for a leading run and for a trailing run. -/
def splitSlashRuns (s : Str) : List Str :=
  match splitOnSep s with
  | [] => []
  | x :: xs => x :: collapseMid xs

example : splitSlashRuns (ofStr "/a//b/") = [[], ofStr "a", ofStr "b", []] := by decide
example : splitSlashRuns (ofStr "") = [[]] := by decide
example : splitSlashRuns (ofStr "/") = [[], []] := by decide

/-- Character class `[\w-]` of the placeholder regex. -/
def isParamChar (c : Char) : Bool := c.isAlphanum || c = '_' || c = '-'

/-- Model of `segment.match(/^:([\w-]+)(\??)$/)`: returns the placeholder
name and whether the optional marker `?` is present, or `none` when the
segment is not a placeholder. -/
def keyMatch (seg : Str) : Option (Str × Bool) :=
  match seg with
  | ':' :: r =>
    let (name, opt) :=
      if r.getLast? = some '?' then (r.dropLast, true) else (r, false)
    if name ≠ [] ∧ name.all isParamChar then some (name, opt) else none
  | _ => none

example : keyMatch (ofStr ":id") = some (ofStr "id", false) := by decide
example : keyMatch (ofStr ":id?") = some (ofStr "id", true) := by decide
example : keyMatch (ofStr "abc") = none := by decide
example : keyMatch (ofStr ":") = none := by decide
example : keyMatch (ofStr ":a?b") = none := by decide

/-- Values accepted by `generatePath` params (`number | string | null`);
an absent key models JavaScript `undefined`. -/
inductive PVal where
  | str (s : Str)
  | num (n : Int)
  | null
deriving DecidableEq

/-- Lookup in a params object (association list keyed by `Str`). -/
def objLookup {α : Type} (m : List (Str × α)) (k : Str) : Option α :=
  match m with
  | [] => none
  | (k', v) :: rest => if k' = k then some v else objLookup rest k

/-- Model of `p == null` for a looked-up param (`null` or absent). -/
def pvalIsNullish (p : Option PVal) : Bool :=
  match p with
  | none => true
  | some .null => true
  | some _ => false

/-- Model of `stringify`: `p == null ? '' : typeof p === 'string' ? p : String(p)`. -/
def pvalStringify (p : Option PVal) : Str :=
  match p with
  | none => []
  | some .null => []
  | some (.str s) => s
  | some (.num n) => (toString n).toList

/-- Error text of `invariant(..., `Missing ":key" param`)`. -/
def missingParamMsg (k : Str) : Str :=
  ofStr "Missing \":" ++ k ++ ofStr "\" param"

/-- Per-segment processing step of `generatePath`: substitutes placeholder
segments (failing on a required placeholder whose param is null/absent) and
strips a trailing `?` marker from static segments. -/
def generateSegment (params : List (Str × PVal)) (seg : Str) : Except Str Str :=
  match keyMatch seg with
  | some (key, optional) =>
    if optional || !pvalIsNullish (objLookup params key) then
      .ok (pvalStringify (objLookup params key))
    else .error (missingParamMsg key)
  | none => .ok (if seg.getLast? = some '?' then seg.dropLast else seg)

/-- Mapping of `generateSegment` over the segment list, propagating the
first thrown invariant, exactly as the JavaScript `.map` callback whose
`invariant` throw aborts the whole call. -/
def mapSegments (params : List (Str × PVal)) : List Str → Except Str (List Str)
  | [] => .ok []
  | s :: rest => do
    let v ← generateSegment params s
    let vs ← mapSegments params rest
    pure (v :: vs)

/-- Model of `generatePath(originalPath, params)` from `url.ts`: splits the
template on slash runs, substitutes `:name` / `:name?` placeholders, removes
empty segments, re-joins with `/`, and keeps a leading `/`.  Thrown
invariants are modelled as `Except.error`. -/
def generatePath (path : Str) (params : List (Str × PVal)) : Except Str Str := do
  let lead : Str := if path.head? = some '/' then ['/'] else []
  let segments ← mapSegments params (splitSlashRuns path)
  pure (lead ++ List.intercalate ['/'] (segments.filter (fun s => s ≠ [])))

example : generatePath (ofStr "/api/v1/products/:productId")
    [(ofStr "productId", .num 10)] = .ok (ofStr "/api/v1/products/10") := by decide
example : generatePath (ofStr "/a/:id") [] = .error (missingParamMsg (ofStr "id")) := by decide
example : generatePath (ofStr "/a/:id?") [] = .ok (ofStr "/a") := by decide

/-! ## Query codec (`src/packages/common/http/src/http/query.ts`)

Payload values model the JavaScript value domain the codec handles:
string, number (integers), boolean, `null`, `undefined`, and arrays of
these scalars.  `Date` values, nested arrays and other objects are outside
the modelled domain, so every modelled value has a built-in serializer and
the `No serializer found` throw of `serializeQueryParam` is unreachable
here.  JavaScript objects are modelled as association lists in
key-insertion order; object creation and spreading go through `objInsert`,
which keeps the first-insertion position of a key and updates its value,
exactly like JavaScript property order for string keys. -/

inductive QScalar where
  | str (s : Str)
  | num (n : Int)
  | bool (b : Bool)
  | null
  | undef
deriving DecidableEq

inductive QVal where
  | scalar (v : QScalar)
  | arr (xs : List QScalar)
deriving DecidableEq

/-- Membership of a key in an object. -/
def objHasKey {α : Type} (m : List (Str × α)) (k : Str) : Bool :=
  match m with
  | [] => false
  | (k', _) :: rest => if k' = k then true else objHasKey rest k

/-- JavaScript property assignment `obj[k] = v`: updates the value in place
when the key exists (keeping its position), otherwise appends. -/
def objInsert {α : Type} (m : List (Str × α)) (k : Str) (v : α) : List (Str × α) :=
  match m with
  | [] => [(k, v)]
  | (k', v') :: rest =>
    if k' = k then (k', v) :: rest else (k', v') :: objInsert rest k v

/-- Folding property assignments, modelling `Object.assign` / object spread
of a pair sequence into an existing object. -/
def objInsertAll {α : Type} (m : List (Str × α)) (ps : List (Str × α)) : List (Str × α) :=
  ps.foldl (fun acc p => objInsert acc p.1 p.2) m

/-- Array-format policy of `QueryParamsEncodingOptions` (the TypeScript type
admits only these three literals). -/
inductive ArrayFormat where
  | repeatFmt
  | comma
  | bracket
deriving DecidableEq

/-- Encoding options (`arrayFormat` defaults to `repeat`, `skipNull` to
`false`); custom serializers are outside the modelled domain, so the
serializer chain is always the built-in one. -/
structure EncodingOptions where
  arrayFormat : ArrayFormat := .repeatFmt
  skipNull : Bool := false
deriving DecidableEq

/-- Model of `serializeQueryParam` with the built-in serializer chain:
`undefined` short-circuits to `undefined` (`none`); strings, numbers,
booleans and `null` serialize in chain order. -/
def serializeQueryParam (v : QScalar) : Option Str :=
  match v with
  | .undef => none
  | .str s => some s
  | .num n => some (toString n).toList
  | .bool b => some (if b then ofStr "true" else ofStr "false")
  | .null => some (ofStr "null")

/-- Model of `flattenParams`: walks the payload object in insertion order,
skips `undefined` values (and `null` when `skipNull`), expands array values
per the `arrayFormat` policy (dropping a key whose elements all serialize
to `undefined`), and serializes scalars via the chain. -/
def flattenParams (params : List (Str × QVal)) (options : EncodingOptions) :
    List (Str × Str) :=
  params.foldl (fun entries kv =>
    let (key, value) := kv
    match value with
    | .scalar .undef => entries
    | .scalar .null =>
      if options.skipNull then entries
      else entries ++ [(key, ofStr "null")]
    | .arr items =>
      let processedValues := items.filterMap serializeQueryParam
      if processedValues = [] then entries
      else
        match options.arrayFormat with
        | .repeatFmt => entries ++ processedValues.map (fun v => (key, v))
        | .comma => entries ++ [(key, List.intercalate [','] processedValues)]
        | .bracket => entries ++ processedValues.map (fun v => (key ++ ofStr "[]", v))
    | .scalar s =>
      match serializeQueryParam s with
      | some str => entries ++ [(key, str)]
      | none => entries) []

/-- Model of `URLSearchParams.append`/`toString` over the identity-encoded
character domain: `key=value` pairs joined with `&`. -/
def searchParamsToString (entries : List (Str × Str)) : Str :=
  List.intercalate ['&'] (entries.map (fun kv => kv.1 ++ '=' :: kv.2))

/-- Model of `encodeQueryParams(params, options)` from `query.ts`. -/
def encodeQueryParams (params : List (Str × QVal))
    (options : EncodingOptions := {}) : Str :=
  searchParamsToString (flattenParams params options)

example : encodeQueryParams [(ofStr "arr", .arr [.num 1, .num 2, .num 3])]
    = ofStr "arr=1&arr=2&arr=3" := by decide
example : encodeQueryParams [(ofStr "arr", .arr [.num 1, .num 2])] { arrayFormat := .comma }
    = ofStr "arr=1,2" := by decide
example : encodeQueryParams [(ofStr "a", .scalar .undef)] = [] := by decide

/-! ## URL parsing and `insertQueryParams` / `extractQueryParams`

The WHATWG `URL` / `URLSearchParams` runtime objects are modelled over the
identity-encoded character domain: hosts are lowercase without ports or
credentials, URLs carry no fragment, and percent-decoding is the identity. -/

/-- Generic split on a single character (JavaScript `split(c)`); the result
is always nonempty. -/
def splitOnChar (c : Char) : Str → List Str
  | [] => [[]]
  | x :: rest =>
    let r := splitOnChar c rest
    if x = c then [] :: r
    else
      match r with
      | [] => [[x]]
      | h :: t => (x :: h) :: t

/-- Split off the part before the first occurrence of `c`; the second
component is the remainder after `c`, or `none` when `c` does not occur. -/
def splitFirstOn (c : Char) : Str → Str × Option Str
  | [] => ([], none)
  | x :: rest =>
    if x = c then ([], some rest)
    else
      let (before, after) := splitFirstOn c rest
      (x :: before, after)

/-- Query-string part of a URL: everything after the first `?`. -/
def queryStringOf (url : Str) : Str := ((splitFirstOn '?' url).2).getD []

/-- Model of `new URL(url, base).searchParams` entry iteration: splits the
query on `&`, drops empty pieces, and splits each piece on the first `=`
(a piece without `=` maps to the empty value). -/
def parseQueryPairs (q : Str) : List (Str × Str) :=
  ((splitOnChar '&' q).filter (fun p => p ≠ [])).map
    (fun p => let (k, v) := splitFirstOn '=' p; (k, v.getD []))

/-- Model of `extractQueryParams(url)` from `query.ts`: parses the (absolute
or relative) URL against the dummy base and returns
`Object.fromEntries(urlObj.searchParams.entries())` — for a repeated key the
last occurrence wins. -/
def extractQueryParams (url : Str) : List (Str × Str) :=
  objInsertAll [] (parseQueryPairs (queryStringOf url))

example : extractQueryParams (ofStr "https://x.com/api?search=Bob")
    = [(ofStr "search", ofStr "Bob")] := by decide
example : extractQueryParams (ofStr "/api?a=1&a=2") = [(ofStr "a", ofStr "2")] := by decide

/-- Model of `new URL(url)` without a base: succeeds only for absolute
`http(s)` URLs with a nonempty host, returning `(origin, pathname)` with the
pathname normalized to `/` when empty.  A relative URL throws (`none`). -/
def parseAbsoluteURL (url : Str) : Option (Str × Str) :=
  let scheme? :=
    if (ofStr "http://").isPrefixOf url then some (ofStr "http://")
    else if (ofStr "https://").isPrefixOf url then some (ofStr "https://")
    else none
  match scheme? with
  | none => none
  | some scheme =>
    let rest := url.drop scheme.length
    let host := rest.takeWhile (fun c => !(c == '/' || c == '?'))
    if host = [] then none
    else
      let after := rest.drop host.length
      let pathname := after.takeWhile (fun c => c != '?')
      some (scheme ++ host, if pathname = [] then ['/'] else pathname)

example : parseAbsoluteURL (ofStr "https://x.com/api?search=Bob")
    = some (ofStr "https://x.com", ofStr "/api") := by decide
example : parseAbsoluteURL (ofStr "/api?a=1") = none := by decide
example : parseAbsoluteURL (ofStr "api/v1?a=1") = none := by decide

/-- Model of `insertQueryParams(baseUrl, payload, options)` from `query.ts`:
`undefined` payload (`none`) returns `baseUrl` unchanged; when the base URL
already carries query params, they are merged with the payload (payload
wins per key) and the base is truncated to `origin + pathname` via
`new URL(baseUrl)` — which throws (`Except.error`) for a relative base;
finally the re-encoded merged string is appended unless it is empty. -/
def insertQueryParams (baseUrl : Str) (payload : Option (List (Str × QVal)))
    (options : EncodingOptions := {}) : Except Str Str :=
  match payload with
  | none => .ok baseUrl
  | some payload => do
    let existingParams := extractQueryParams baseUrl
    let (params, url) ←
      if existingParams ≠ [] then
        match parseAbsoluteURL baseUrl with
        | none => Except.error (ofStr "Invalid URL")
        | some (origin, pathname) =>
          Except.ok
            (objInsertAll (existingParams.map (fun kv => (kv.1, QVal.scalar (.str kv.2)))) payload,
              origin ++ pathname)
      else Except.ok (payload, baseUrl)
    let encodedParams := encodeQueryParams params options
    pure (if encodedParams = [] then url else url ++ '?' :: encodedParams)

example : insertQueryParams (ofStr "https://x.com/api?search=Bob")
    (some [(ofStr "isActive", .scalar (.bool true))])
    = .ok (ofStr "https://x.com/api?search=Bob&isActive=true") := by decide
example : insertQueryParams (ofStr "https://x.com/api?search=Bob")
    (some [(ofStr "search", .scalar (.str (ofStr "Alice"))), (ofStr "isActive", .scalar (.bool true))])
    = .ok (ofStr "https://x.com/api?search=Alice&isActive=true") := by decide
example : insertQueryParams (ofStr "/api?a=1") (some [(ofStr "b", .scalar (.num 2))])
    = .error (ofStr "Invalid URL") := by decide
example : insertQueryParams (ofStr "https://x.com/api?a=1&a=2") (some [])
    = .ok (ofStr "https://x.com/api?a=2") := by decide

/-! ## Route registry (`routes` in the unnamed routes module) -/

/-- Declarative route tree node: a relative `path` segment plus named
children (extra metadata fields are out of scope of the runtime claims). -/
inductive RouteNode where
  | mk (path : Str) (children : List (Str × RouteNode))

/-- Path segment of a node. -/
def RouteNode.path : RouteNode → Str
  | .mk p _ => p

/-- Children of a node. -/
def RouteNode.children : RouteNode → List (Str × RouteNode)
  | .mk _ cs => cs

/-- Runtime content of a `TransformedRoute`: its absolute path (also its
string value), flattened key, and parent key.  The bound `generatePath`
member is `fun params => generatePath path params` and is derived from
`path`, so it is not stored. -/
structure TransformedRoute where
  path : Str
  key : Str
  parentKey : Str
deriving DecidableEq

/-- Key chaining `parentKey ? parentKey + "_" + key : key`. -/
def chainKey (parentKey key : Str) : Str :=
  if parentKey = [] then key else parentKey ++ '_' :: key

/-- Entry stream produced by `accumulateRoutes`: for each node, first the
recursively flattened children (accumulated into the object by
`Object.assign`), then the node's own entry — modelled as the concatenated
pair sequence in assignment order. -/
def routePairs : List (Str × RouteNode) → Str → Str → List (Str × TransformedRoute)
  | [], _, _ => []
  | (key, .mk nodePath nodeChildren) :: rest, parentPath, parentKey =>
    let currentKey := chainKey parentKey key
    let absPath := urlJoin [parentPath, nodePath]
    routePairs nodeChildren absPath currentKey
      ++ [(currentKey, ⟨absPath, currentKey, parentKey⟩)]
      ++ routePairs rest parentPath parentKey

/-- Total number of nodes in a route tree. -/
def countNodes : List (Str × RouteNode) → Nat
  | [] => 0
  | (_, .mk _ nodeChildren) :: rest => 1 + countNodes nodeChildren + countNodes rest

/-- Model of `routes(hierarchy)`: the flattened route object, built by
folding the assignment stream into an (initially empty) JavaScript object. -/
def routes (hierarchy : List (Str × RouteNode)) : List (Str × TransformedRoute) :=
  objInsertAll [] (routePairs hierarchy [] [])

example :
    routes [(ofStr "A", .mk (ofStr "a") [(ofStr "B", .mk (ofStr "b") [])])]
    = [(ofStr "A_B", ⟨ofStr "a/b/", ofStr "A_B", ofStr "A"⟩),
       (ofStr "A", ⟨ofStr "a/", ofStr "A", []⟩)] := by
  simp only [routes, routePairs]
  decide

/-! ## Fetcher (`src/packages/common/http/src/http/url.ts`, class `Fetcher`)

The network primitive is modelled as a pure function from the processed
URL, the processed payload body, and the 1-based attempt number to a
response; hook suspension (`await`) is invisible in the pure model.  The
`headers` / `fetchParams` merge and the `debug` side channel carry no
control flow and are not part of the modelled state.  When no
`processResponse` hook is configured the raw response is returned, which is
the instance `α := Response`, `processResponse := id` of the model. -/

/-- Error classification of `errors.ts` (`CLIENT` for 4xx, `SERVER` for 5xx
per the doc comment; the implemented boundary is `statusCode > 500`). -/
inductive ErrorType where
  | CLIENT
  | SERVER
deriving DecidableEq

/-- Model of the `HTTPError` class state. -/
structure HTTPError where
  message : Str
  statusCode : Nat
  body : Str
  type : ErrorType
deriving DecidableEq

/-- Model of `new HTTPError(message, options)`: stores the status code, the
body defaulted to the empty string, and the derived
`type = statusCode > 500 ? SERVER : CLIENT`. -/
def mkHTTPError (message : Str) (statusCode : Nat) (body : Option Str := none) : HTTPError :=
  { message := message
    statusCode := statusCode
    body := body.getD []
    type := if 500 < statusCode then .SERVER else .CLIENT }

/-- Response-like value of the network primitive: a numeric status code and
the body text. -/
structure Response where
  status : Nat
  body : Str
deriving DecidableEq

/-- Success indicator `response.ok` (2xx). -/
def Response.ok (r : Response) : Bool := 200 ≤ r.status && r.status < 300

/-- Model of `enum ErrorHandlerFlag { RETRY = 0 }`. -/
inductive ErrorHandlerFlag where
  | RETRY
deriving DecidableEq

/-- Value-level outcome of one `errorHandler` invocation: either a returned
flag (`retry()` returns `ErrorHandlerFlag.RETRY`), a plain
`undefined`/`void` return, or a thrown error (carried as text). -/
inductive HandlerReturn where
  | flag (f : ErrorHandlerFlag)
  | nothing
  | raise (e : Str)
deriving DecidableEq

/-- Observable behaviour of one `errorHandler` invocation: whether the
handler invoked the provided `retry()` callback at least once (which sets
the loop's `retry` variable as a side effect), and what it returned. -/
structure HandlerOutcome where
  calledRetry : Bool
  ret : HandlerReturn
deriving DecidableEq

/-- Handler model: a function of the error and the 1-based attempt number. -/
def ErrorHandler := HTTPError → Nat → HandlerOutcome

/-- Result of the dispatch loop.  `outOfFuel` means the loop was still
retrying when the modelling fuel ran out — the real loop would continue. -/
inductive FetchResult (α : Type) where
  | success (value : α)
  | failure (e : HTTPError)
  | handlerThrew (e : Str)
  | outOfFuel
deriving DecidableEq

/-- Error carried while building the `HTTPError` of a non-2xx response. -/
def httpErrorOf (resp : Response) : HTTPError :=
  mkHTTPError (ofStr "HTTP error") resp.status (some resp.body)

/-- Model of the `while (retry)` dispatch loop of `Fetcher.fetch`.  The
`attempt` argument is the value of the counter before `attempt++`; the
second result component is the list of `(attempt, error)` pairs at which the
error handler was invoked, in order.  Each iteration: performs the network
call; on 2xx returns the processed response; otherwise constructs the
`HTTPError`, consults the handler (if any), and repeats exactly when the
handler called `retry()` or returned `ErrorHandlerFlag.RETRY`. -/
def fetchLoop {α : Type} (processResponse : Response → α)
    (errorHandler : Option ErrorHandler) (network : Nat → Response) :
    Nat → Nat → FetchResult α × List (Nat × HTTPError)
  | 0, _ => (.outOfFuel, [])
  | fuel + 1, attempt =>
    let a := attempt + 1
    let response := network a
    if response.ok then (.success (processResponse response), [])
    else
      let error := httpErrorOf response
      match errorHandler with
      | none => (.failure error, [])
      | some handler =>
        let outcome := handler error a
        match outcome.ret with
        | .raise e => (.handlerThrew e, [(a, error)])
        | r =>
          if outcome.calledRetry || r = .flag .RETRY then
            let next := fetchLoop processResponse errorHandler network fuel a
            (next.1, (a, error) :: next.2)
          else (.failure error, [(a, error)])

/-- Fetcher configuration slice relevant to the claims (`headers`,
`fetchParams` and `debug` carry no control flow; hooks are modelled as
total functions: `processResponse := id` at `α := Response` models the
absent hook, and likewise `processPayload := id`). -/
structure FetcherCfg (α β : Type) where
  baseUrl : Option Str := none
  trailingSlash : Bool := true
  queryParams : List (Str × QVal) := []
  queryParamsOptions : EncodingOptions := {}
  processPayload : β → β := id
  processResponse : Response → α
  errorHandler : Option ErrorHandler := none

/-- Model of `Fetcher.fetch(url, payload)`: merges instance and call query
params (call wins), builds the final URL as
`insertQueryParams(urlJoin([baseUrl, url], {trailingSlash}), queryParams,
queryParamsOptions)`, processes the payload once, then drives the dispatch
loop; the processed URL and payload are fixed before the loop, so every
attempt reuses them. -/
def fetchModel {α β : Type} (cfg : FetcherCfg α β) (url : Str)
    (payloadQueryParams : List (Str × QVal)) (payloadBody : β)
    (network : Str → β → Nat → Response) (fuel : Nat) :
    Except Str (FetchResult α × List (Nat × HTTPError)) :=
  let queryParams := objInsertAll cfg.queryParams payloadQueryParams
  let joined := urlJoin [cfg.baseUrl.getD [], url] cfg.trailingSlash
  match insertQueryParams joined (some queryParams) cfg.queryParamsOptions with
  | .error e => .error e
  | .ok processedUrl =>
    let processedPayload := cfg.processPayload payloadBody
    .ok (fetchLoop cfg.processResponse cfg.errorHandler
      (network processedUrl processedPayload) fuel 0)

example :
    fetchModel (α := Response) (β := Unit)
      { baseUrl := some (ofStr "https://x.com"), processResponse := id }
      (ofStr "/api") [] ()
      (fun _ _ _ => { status := 500, body := ofStr "oops" }) 1
    = .ok (.failure (mkHTTPError (ofStr "HTTP error") 500 (some (ofStr "oops"))), []) := by
  decide

/-! ## Fetcher construction and `override`

To make mutation observable, Fetcher config objects live in an append-only
store (the heap); a Fetcher is a reference into it.  `override(fn)` with a
pure `fn` (the claim assumes `fn` does not mutate its argument, which is
inherent for Lean functions) reads the receiver's config, applies `fn`, and
constructs a new Fetcher — allocating a fresh cell, never writing existing
ones.  Data fields stand in for the full config; hook fields are functions
and are omitted from the stored record. -/

structure FetcherConfig where
  debug : Option Bool := none
  baseUrl : Option Str := none
  trailingSlash : Option Bool := none
  headers : Option (List (Str × Str)) := none
  queryParams : Option (List (Str × QVal)) := none
deriving DecidableEq

/-- Model of `{ ...DefaultFetcherConfig, ...config }` with
`DefaultFetcherConfig = { trailingSlash: true }`: every present field of
`config` wins; `trailingSlash` falls back to `true` when absent. -/
def mergeDefaultConfig (config : FetcherConfig) : FetcherConfig :=
  { config with trailingSlash := config.trailingSlash.getD true }

/-- Heap of constructed Fetcher configs; a Fetcher is an index into it. -/
abbrev FetcherStore := List FetcherConfig

/-- Config cell of a Fetcher reference (the empty config for a dangling
reference, which constructed references never are). -/
def FetcherStore.configAt (store : FetcherStore) (ref : Nat) : FetcherConfig :=
  (List.getD store ref {})

/-- Model of `new Fetcher(config)`: writes `{...Default, ...config}` into a
fresh cell and returns the extended store with the new reference. -/
def newFetcher (store : FetcherStore) (config : FetcherConfig) : FetcherStore × Nat :=
  (store ++ [mergeDefaultConfig config], store.length)

/-- Model of `override(overrideFn)`:
`return new Fetcher(overrideFn(this.config))`. -/
def Fetcher.override (store : FetcherStore) (ref : Nat)
    (overrideFn : FetcherConfig → FetcherConfig) : FetcherStore × Nat :=
  newFetcher store (overrideFn (store.configAt ref))

/-! ## Claims -/

/-- Backend returning status 500 with body `oops` on every attempt. -/
def server500Backend : Str → Unit → Nat → Response :=
  fun _ _ _ => { status := 500, body := ofStr "oops" }

/-- C1: an `HTTPError` constructed with status code `s` has type `SERVER`
iff `s > 500` and type `CLIENT` otherwise (status 500 itself is `CLIENT`);
and a Fetcher with no `errorHandler` whose network call returns status 500
rejects with an `HTTPError` whose `statusCode` is `500` and whose `type` is
`CLIENT` (the verb helpers such as `get` only fix the method, which the
model ignores). -/
theorem C1_httpError_boundary_500_client :
    (∀ (msg : Str) (s : Nat) (b : Option Str),
      ((mkHTTPError msg s b).type = .SERVER ↔ 500 < s) ∧
      ((mkHTTPError msg s b).type = .CLIENT ↔ s ≤ 500)) ∧
    (fetchModel (α := Response) (β := Unit)
        { baseUrl := some (ofStr "https://x.com"), processResponse := id }
        (ofStr "/api") [] () server500Backend 1
      = .ok (.failure (mkHTTPError (ofStr "HTTP error") 500 (some (ofStr "oops"))), [])
      ∧ (mkHTTPError (ofStr "HTTP error") 500 (some (ofStr "oops"))).statusCode = 500
      ∧ (mkHTTPError (ofStr "HTTP error") 500 (some (ofStr "oops"))).type = .CLIENT) := by
  constructor
  · intro msg s b
    refine ⟨?_, ?_⟩ <;> by_cases h : 500 < s <;> simp [mkHTTPError, h] <;> omega
  · exact ⟨by decide, by decide, by decide⟩

/-- Handler that always requests a retry (`return retry()`). -/
def alwaysRetryHandler : ErrorHandler := fun _ _ => ⟨true, .flag .RETRY⟩

/-- Backend failing with status 500 on every attempt. -/
def always500 : Nat → Response := fun _ => { status := 500, body := [] }

/-- C3: the retry loop imposes no built-in bound on attempts: for every `n`
there are an error handler (always retrying) and a response sequence of
non-2xx statuses under which the loop performs `n` network attempts (one
handler invocation each) and is still retrying when the fuel runs out. -/
theorem C3_no_retry_bound :
    ∀ n : Nat, ∃ (h : ErrorHandler) (net : Nat → Response),
      (∀ a, (net a).ok = false) ∧
      (fetchLoop (α := Response) id (some h) net n 0).1 = .outOfFuel ∧
      (fetchLoop (α := Response) id (some h) net n 0).2.length = n := by
  intro n
  refine ⟨alwaysRetryHandler, always500, fun _ => rfl, ?_⟩
  have key : ∀ (fuel a : Nat),
      (fetchLoop (α := Response) id (some alwaysRetryHandler) always500 fuel a).1 = .outOfFuel ∧
      (fetchLoop (α := Response) id (some alwaysRetryHandler) always500 fuel a).2.length = fuel := by
    intro fuel
    induction fuel with
    | zero => intro a; exact ⟨rfl, rfl⟩
    | succ m ih =>
      intro a
      have := ih (a + 1)
      simp only [fetchLoop, always500, alwaysRetryHandler, Response.ok] at *
      simp_all
  exact key n 0

/-- C9: invoking the `retry()` callback alone (handler returns `undefined`)
re-arms the loop: when the response of attempt `a+1` is non-2xx and the
handler's outcome called `retry()` but returned nothing, the loop of fuel
`fuel+1` recurses into the loop of fuel `fuel` at the next attempt,
prepending this handler invocation to the trace. -/
theorem C9_retry_side_effect {α : Type} (pr : Response → α) (h : ErrorHandler)
    (net : Nat → Response) (fuel a : Nat)
    (hok : (net (a + 1)).ok = false)
    (hcr : (h (httpErrorOf (net (a + 1))) (a + 1)).calledRetry = true)
    (hret : (h (httpErrorOf (net (a + 1))) (a + 1)).ret = .nothing) :
    fetchLoop pr (some h) net (fuel + 1) a
      = ((fetchLoop pr (some h) net fuel (a + 1)).1,
          (a + 1, httpErrorOf (net (a + 1))) :: (fetchLoop pr (some h) net fuel (a + 1)).2) := by
  simp only [fetchLoop, hok, Bool.false_eq_true, if_false]
  rw [hret]
  simp [hcr]

/-- Handler that calls `retry()` and then returns `undefined`. -/
def retryDiscardHandler : ErrorHandler := fun _ _ => ⟨true, .nothing⟩

/-- Backend that fails once with 500 and then succeeds with 200. -/
def failOnceBackend : Nat → Response :=
  fun a => if a = 1 then { status := 500, body := [] } else { status := 200, body := ofStr "ok" }

/-- Witness for C9 at a concrete handler, backend, fuel and attempt. -/
theorem C9_retry_side_effect_witness :
    fetchLoop (α := Response) id (some retryDiscardHandler) failOnceBackend 2 0
      = ((fetchLoop (α := Response) id (some retryDiscardHandler) failOnceBackend 1 1).1,
          (1, httpErrorOf (failOnceBackend 1))
            :: (fetchLoop (α := Response) id (some retryDiscardHandler) failOnceBackend 1 1).2) :=
  C9_retry_side_effect id retryDiscardHandler failOnceBackend 1 0
    (by decide) (by decide) (by decide)

/-- C10: for a relative base URL (no scheme/host, so `new URL(baseUrl)`
throws) that carries query params, `insertQueryParams` with a present
payload throws, even though `extractQueryParams` itself parses the relative
URL (against the dummy base) — its nonempty result is what steers execution
into the throwing branch. -/
theorem C10_relative_base_with_query_throws
    (baseUrl : Str) (payload : List (Str × QVal)) (options : EncodingOptions)
    (habs : parseAbsoluteURL baseUrl = none)
    (hq : extractQueryParams baseUrl ≠ [])
    (hp : payload ≠ []) :
    insertQueryParams baseUrl (some payload) options = .error (ofStr "Invalid URL") := by
  simp [insertQueryParams, habs, hq]

/-- Witness for C10 at a concrete relative URL and payload. -/
theorem C10_relative_base_with_query_throws_witness :
    insertQueryParams (ofStr "/api?a=1") (some [(ofStr "b", .scalar (.num 2))]) {}
      = .error (ofStr "Invalid URL") :=
  C10_relative_base_with_query_throws (ofStr "/api?a=1") [(ofStr "b", .scalar (.num 2))] {}
    (by decide) (by decide) (by decide)

/-- C8 counterexample: overriding with a function returning the empty
config yields a Fetcher whose stored config is the default-merged config
(`trailingSlash` set to `true`), not the function's output itself. -/
theorem C8_counterexample_default_merge :
    ((Fetcher.override (newFetcher [] { baseUrl := some (ofStr "https://e.com") }).1
        (newFetcher [] { baseUrl := some (ofStr "https://e.com") }).2
        (fun _ => {})).1).configAt
      ((Fetcher.override (newFetcher [] { baseUrl := some (ofStr "https://e.com") }).1
        (newFetcher [] { baseUrl := some (ofStr "https://e.com") }).2
        (fun _ => {})).2)
    ≠ ({} : FetcherConfig) := by decide

/-- C8 (amended): `override(fn)` allocates a fresh config cell holding
`{...DefaultFetcherConfig, ...fn(currentConfig)}` — equal to
`fn(currentConfig)` whenever that value carries `trailingSlash` — and the
store is only appended to, so the receiver's stored config (and every other
existing cell) is unchanged; `fn` is a pure function, so it cannot mutate
its argument. -/
theorem C8_override_fresh_cell_no_mutation (store : FetcherStore) (ref : Nat)
    (overrideFn : FetcherConfig → FetcherConfig) :
    (Fetcher.override store ref overrideFn).1
      = store ++ [mergeDefaultConfig (overrideFn (store.configAt ref))] ∧
    ((Fetcher.override store ref overrideFn).1).configAt (Fetcher.override store ref overrideFn).2
      = mergeDefaultConfig (overrideFn (store.configAt ref)) ∧
    ((Fetcher.override store ref overrideFn).1).take store.length = store := by
  refine ⟨rfl, ?_, ?_⟩
  · show (store ++ [_]).getD store.length {} = _
    simp [List.getD_eq_getElem?_getD, List.getElem?_append_right]
  · exact List.take_left store _

/-! ### C2: retry scenario and 1-based consecutive attempt numbering -/

/-- Attempt numbers at which the error handler fires are consecutive,
starting at `attempt₀ + 1` (so `1` for a fresh call). -/
theorem fetchLoop_trace_attempts {α : Type} (pr : Response → α) (h : ErrorHandler)
    (net : Nat → Response) : ∀ (fuel a : Nat),
    (fetchLoop pr (some h) net fuel a).2.map Prod.fst
      = List.range' (a + 1) (fetchLoop pr (some h) net fuel a).2.length := by
  intro fuel
  induction fuel with
  | zero => intro a; simp [fetchLoop]
  | succ m ih =>
    intro a
    simp only [fetchLoop]
    by_cases hok : (net (a + 1)).ok = true
    · simp [hok]
    · simp only [hok, Bool.false_eq_true, if_false]
      cases hr : (h (httpErrorOf (net (a + 1))) (a + 1)).ret with
      | raise e => simp [hr, List.range'_succ]
      | nothing =>
        by_cases hcr : (h (httpErrorOf (net (a + 1))) (a + 1)).calledRetry = true
        · simp [hr, hcr, ih (a + 1), List.range'_succ]
        · simp [hr, Bool.eq_false_iff.mpr hcr, List.range'_succ]
      | flag f =>
        cases f
        simp [hr, ih (a + 1), List.range'_succ]

/-- Handler that calls `retry()` (and returns its flag) exactly on 401. -/
def retryOn401Handler : ErrorHandler := fun err _ =>
  if err.statusCode = 401 then ⟨true, .flag .RETRY⟩ else ⟨false, .nothing⟩

/-- Backend answering 401 on the first attempt and 200 (`ok` body) after. -/
def backend401Then200 : Str → Unit → Nat → Response :=
  fun _ _ a =>
    if a = 1 then { status := 401, body := ofStr "unauthorized" }
    else { status := 200, body := ofStr "ok" }

/-- C2: the error handler is invoked with a 1-based attempt number and a
requested retry re-runs the loop with the attempt incremented (handler
invocations carry consecutive attempt numbers `1, 2, …`), reusing the URL
and payload processed before the loop (`fetchModel` fixes them before
`fetchLoop` runs); concretely, with a retry-on-401 handler against a
backend answering 401 then 200, the call resolves with the second
response's processed value (`processResponse` applied to the 200 response)
and the handler observed attempt `1` on its single invocation. -/
theorem C2_retry_attempt_numbering_and_second_response :
    (∀ (α : Type) (pr : Response → α) (h : ErrorHandler) (net : Nat → Response) (fuel a : Nat),
      (fetchLoop pr (some h) net fuel a).2.map Prod.fst
        = List.range' (a + 1) (fetchLoop pr (some h) net fuel a).2.length) ∧
    fetchModel (α := Str) (β := Unit)
        { baseUrl := some (ofStr "https://x.com"),
          processResponse := fun r => r.body,
          errorHandler := some retryOn401Handler }
        (ofStr "/api") [] () backend401Then200 2
      = .ok (.success (ofStr "ok"),
          [(1, mkHTTPError (ofStr "HTTP error") 401 (some (ofStr "unauthorized")))]) := by
  exact ⟨fun α => fetchLoop_trace_attempts, by decide⟩

/-! ### C7: route-tree flattening -/

/-- Every node of the tree contributes exactly one entry to the assignment
stream. -/
theorem routePairs_length_eq :
    ∀ (obj : List (Str × RouteNode)) (pp pk : Str),
      (routePairs obj pp pk).length = countNodes obj
  | [], _, _ => by simp [routePairs, countNodes]
  | (key, .mk p cs) :: rest, pp, pk => by
    have h1 := routePairs_length_eq cs (urlJoin [pp, p]) (chainKey pk key)
    have h2 := routePairs_length_eq rest pp pk
    simp [routePairs, countNodes, h1, h2]
    omega

/-- Each tree entry produces the pair whose key is the underscore-joined
chain of its ancestors' keys and whose path is `urlJoin` of the parent's
absolute path and its own segment. -/
theorem routePairs_mem_of_node (obj : List (Str × RouteNode)) (pp pk key p : Str)
    (cs : List (Str × RouteNode)) (hmem : (key, RouteNode.mk p cs) ∈ obj) :
    (chainKey pk key,
      (⟨urlJoin [pp, p], chainKey pk key, pk⟩ : TransformedRoute)) ∈ routePairs obj pp pk := by
  induction obj with
  | nil => cases hmem
  | cons hd tl ih =>
    obtain ⟨k', n'⟩ := hd
    cases n' with
    | mk p' cs' =>
      rcases List.mem_cons.mp hmem with heq | htl
      · rw [Prod.mk.injEq] at heq
        obtain ⟨hk, hn⟩ := heq
        cases hn
        subst hk
        simp [routePairs]
      · simp only [routePairs]
        refine List.mem_append.mpr (Or.inr ?_)
        exact ih htl

/-- C7: flattening contributes exactly one assignment per node (leaf or
internal), each keyed by the underscore-joined ancestor chain with path
`urlJoin([parentAbsolutePath, segment])`; concretely,
`routes({A:{path:'a',children:{B:{path:'b'}}}})` is exactly the mapping
`{A_B ↦ (path 'a/b/', parentKey 'A'), A ↦ (path 'a/', parentKey '')}` —
the keys are `A` and `A_B`, with paths `a/` and `a/b/`. -/
theorem C7_routes_flattening :
    (∀ (obj : List (Str × RouteNode)) (pp pk : Str),
      (routePairs obj pp pk).length = countNodes obj) ∧
    (∀ (obj : List (Str × RouteNode)) (pp pk key p : Str) (cs : List (Str × RouteNode)),
      (key, RouteNode.mk p cs) ∈ obj →
      (chainKey pk key,
        (⟨urlJoin [pp, p], chainKey pk key, pk⟩ : TransformedRoute)) ∈ routePairs obj pp pk) ∧
    routes [(ofStr "A", .mk (ofStr "a") [(ofStr "B", .mk (ofStr "b") [])])]
      = [(ofStr "A_B", ⟨ofStr "a/b/", ofStr "A_B", ofStr "A"⟩),
         (ofStr "A", ⟨ofStr "a/", ofStr "A", []⟩)] := by
  refine ⟨routePairs_length_eq, ?_, ?_⟩
  · intro obj pp pk key p cs hmem
    exact routePairs_mem_of_node obj pp pk key p cs hmem
  · simp only [routes, routePairs]
    decide

/-- Witness for C7's membership component at a concrete one-node tree. -/
theorem C7_routes_flattening_witness :
    (chainKey [] (ofStr "A"),
      (⟨urlJoin [[], ofStr "a"], chainKey [] (ofStr "A"), []⟩ : TransformedRoute))
      ∈ routePairs [(ofStr "A", .mk (ofStr "a") [])] [] [] :=
  C7_routes_flattening.2.1 [(ofStr "A", .mk (ofStr "a") [])] [] [] (ofStr "A") (ofStr "a") []
    (List.Mem.head _)

/-! ### C5: required and optional path placeholders -/

/-- Probe for a required placeholder segment whose param is null/absent;
returns that placeholder's name. -/
def missProbe (params : List (Str × PVal)) (seg : Str) : Option Str :=
  match keyMatch seg with
  | some (key, false) => if pvalIsNullish (objLookup params key) then some key else none
  | _ => none

/-- Name of the first required placeholder of the template whose param is
null or absent, in segment order. -/
def firstMissingParam (path : Str) (params : List (Str × PVal)) : Option Str :=
  (splitSlashRuns path).findSome? (missProbe params)

/-- Segment processing fails exactly with the invariant of the probed
placeholder. -/
theorem generateSegment_error_of_probe (params : List (Str × PVal)) (seg k : Str)
    (hp : missProbe params seg = some k) :
    generateSegment params seg = .error (missingParamMsg k) := by
  unfold missProbe at hp
  cases hkm : keyMatch seg with
  | none => rw [hkm] at hp; cases hp
  | some kv =>
    obtain ⟨key, opt⟩ := kv
    rw [hkm] at hp
    cases opt with
    | true => simp at hp
    | false =>
      cases hnull : pvalIsNullish (objLookup params key) with
      | false => simp [hnull] at hp
      | true =>
        simp only [hnull, if_true] at hp
        cases hp
        simp [generateSegment, hkm, hnull]

/-- Reduction of `Except` bind on a thrown error. -/
theorem exceptBindErr {ε α β : Type} (e : ε) (f : α → Except ε β) :
    (Except.error e >>= f) = Except.error e := rfl

/-- Reduction of `Except` bind on a successful value. -/
theorem exceptBindOk {ε α β : Type} (a : α) (f : α → Except ε β) :
    (Except.ok a >>= f) = f a := rfl

/-- Reduction of `Except` map on a thrown error. -/
theorem exceptMapErr {ε α β : Type} (e : ε) (f : α → β) :
    (f <$> (Except.error e : Except ε α)) = Except.error e := rfl

/-- Segment processing succeeds on every segment the probe rejects. -/
theorem generateSegment_ok_of_probe_none (params : List (Str × PVal)) (seg : Str)
    (hp : missProbe params seg = none) :
    ∃ w, generateSegment params seg = .ok w := by
  unfold missProbe at hp
  cases hkm : keyMatch seg with
  | none => exact ⟨_, by simp only [generateSegment, hkm]; rfl⟩
  | some kv =>
    obtain ⟨key, opt⟩ := kv
    rw [hkm] at hp
    cases opt with
    | true => exact ⟨_, by simp only [generateSegment, hkm]; rfl⟩
    | false =>
      cases hnull : pvalIsNullish (objLookup params key) with
      | true => simp [hnull] at hp
      | false => exact ⟨_, by simp only [generateSegment, hkm, hnull]; rfl⟩

/-- Mapping the segments fails with the missing-param invariant of the
first probed placeholder. -/
theorem mapSegments_error_of_probe (params : List (Str × PVal)) :
    ∀ (segs : List Str) (k : Str),
      segs.findSome? (missProbe params) = some k →
      mapSegments params segs = .error (missingParamMsg k) := by
  intro segs
  induction segs with
  | nil => intro k hk; simp [List.findSome?] at hk
  | cons s rest ih =>
    intro k hk
    rw [List.findSome?_cons] at hk
    cases hp : missProbe params s with
    | some kk =>
      rw [hp] at hk
      have hkk : kk = k := Option.some.inj hk
      subst hkk
      have herr := generateSegment_error_of_probe params s kk hp
      simp [mapSegments, herr, exceptBindErr]
    | none =>
      rw [hp] at hk
      obtain ⟨w, hw⟩ := generateSegment_ok_of_probe_none params s hp
      simp [mapSegments, hw, exceptBindOk, ih k hk, exceptBindErr, exceptMapErr]

/-- C5: a required `:name` segment whose param is null/absent makes
`generatePath` throw the missing-parameter invariant naming that
placeholder (the first such, in segment order), while an optional `:name?`
segment with no matching param is dropped; concretely
`generatePath('/a/:id', {})` fails with `Missing ":id" param` and
`generatePath('/a/:id?', {})` yields `/a`. -/
theorem C5_generatePath_required_vs_optional :
    (∀ (path : Str) (params : List (Str × PVal)) (k : Str),
      firstMissingParam path params = some k →
      generatePath path params = .error (missingParamMsg k)) ∧
    generatePath (ofStr "/a/:id") [] = .error (missingParamMsg (ofStr "id")) ∧
    generatePath (ofStr "/a/:id?") [] = .ok (ofStr "/a") := by
  refine ⟨?_, by decide, by decide⟩
  intro path params k hk
  have := mapSegments_error_of_probe params (splitSlashRuns path) k hk
  simp [generatePath, this, Except.bind]

/-- Witness for C5's general component at a concrete template. -/
theorem C5_generatePath_required_vs_optional_witness :
    generatePath (ofStr "/b/:x") [] = .error (missingParamMsg (ofStr "x")) :=
  C5_generatePath_required_vs_optional.1 (ofStr "/b/:x") [] (ofStr "x") (by decide)

/-! ### C6: associativity of `urlJoin` under segment concatenation -/

/-- Dropping a satisfied run from an append keeps the right part intact when
the left part does not vanish. -/
theorem dropWhile_append_of_ne_nil {α : Type} (p : α → Bool) :
    ∀ (xs ys : List α), xs.dropWhile p ≠ [] →
      (xs ++ ys).dropWhile p = xs.dropWhile p ++ ys := by
  intro xs
  induction xs with
  | nil => intro ys h; exact absurd rfl h
  | cons x xt ih =>
    intro ys h
    by_cases hx : p x = true
    · rw [List.dropWhile_cons_of_pos hx] at h
      rw [List.cons_append, List.dropWhile_cons_of_pos hx,
        List.dropWhile_cons_of_pos hx, ih ys h]
    · have hx' : p x = false := Bool.eq_false_iff.mpr hx
      rw [List.cons_append, List.dropWhile_cons_of_neg hx, List.dropWhile_cons_of_neg hx,
        List.cons_append]

/-- Dropping a satisfied run twice is the same as dropping it once. -/
theorem dropWhile_idem {α : Type} (p : α → Bool) (l : List α) :
    (l.dropWhile p).dropWhile p = l.dropWhile p := by
  induction l with
  | nil => rfl
  | cons x xt ih =>
    by_cases hx : p x = true
    · rw [List.dropWhile_cons_of_pos hx, ih]
    · rw [List.dropWhile_cons_of_neg hx, List.dropWhile_cons_of_neg hx]

/-- Trailing strip distributes over an append whose right part survives. -/
theorem stripTrailingSep_append (s t : Str) (h : stripTrailingSep t ≠ []) :
    stripTrailingSep (s ++ t) = s ++ stripTrailingSep t := by
  unfold stripTrailingSep at *
  have ht : t.reverse.dropWhile isSepChar ≠ [] := by
    intro hc
    rw [hc] at h
    exact h rfl
  rw [List.reverse_append, dropWhile_append_of_ne_nil isSepChar t.reverse s.reverse ht,
    List.reverse_append, List.reverse_reverse]

/-- Appending one separator does not change the trailing strip. -/
theorem stripTrailingSep_append_sep (s : Str) :
    stripTrailingSep (s ++ ['/']) = stripTrailingSep s := by
  unfold stripTrailingSep
  rw [List.reverse_append]
  rfl

/-- Enforcing the trailing slash does not change the trailing strip. -/
theorem stripTrailingSep_withTrailingSep (s : Str) :
    stripTrailingSep (withTrailingSep s) = stripTrailingSep s := by
  unfold withTrailingSep
  by_cases h : s.getLast? = some '/'
  · rw [if_pos h]
  · rw [if_neg h, stripTrailingSep_append_sep]

/-- Trailing strip is idempotent. -/
theorem stripTrailingSep_idem (s : Str) :
    stripTrailingSep (stripTrailingSep s) = stripTrailingSep s := by
  unfold stripTrailingSep
  rw [List.reverse_reverse, dropWhile_idem]

/-- Enforcing the trailing slash never yields the empty string. -/
theorem withTrailingSep_ne_nil (s : Str) : withTrailingSep s ≠ [] := by
  unfold withTrailingSep
  by_cases h : s.getLast? = some '/'
  · rw [if_pos h]
    intro hc
    rw [hc] at h
    cases h
  · rw [if_neg h]
    simp

/-- Join of a single surviving segment. -/
theorem urlJoin_single (a : Str) (ha : a ≠ []) :
    urlJoin [a] = withTrailingSep (stripTrailingSep a) := by
  simp [urlJoin, ha, sanitizeParts, sanitizeRest, List.intercalate]

/-- Join of two surviving segments. -/
theorem urlJoin_pair (a b : Str) (ha : a ≠ []) (hb : b ≠ []) :
    urlJoin [a, b] = withTrailingSep (stripTrailingSep a ++ '/' :: stripLeadingSep b) := by
  simp [urlJoin, ha, hb, sanitizeParts, sanitizeRest, List.intercalate]

/-- Join of three surviving segments. -/
theorem urlJoin_triple (a b c : Str) (ha : a ≠ []) (hb : b ≠ []) (hc : c ≠ []) :
    urlJoin [a, b, c]
      = withTrailingSep
          (stripTrailingSep a ++ '/' :: (stripBothSep b ++ '/' :: stripLeadingSep c)) := by
  simp [urlJoin, ha, hb, hc, sanitizeParts, sanitizeRest, List.intercalate]

/-- Empty leading segments are filtered before sanitization. -/
theorem urlJoin_pair_left_nil (b : Str) : urlJoin [[], b] = urlJoin [b] := by
  simp [urlJoin]

/-- Empty leading segments are filtered before sanitization. -/
theorem urlJoin_triple_left_nil (b c : Str) : urlJoin [[], b, c] = urlJoin [b, c] := by
  simp [urlJoin]

/-- C6 counterexample: with `b = "/"` (a segment of separators only) the
nested join collapses the segment while the flat join keeps an empty
interior token, producing a double slash — `a/b/` versus `a//b/`. -/
theorem C6_counterexample_sep_segment :
    urlJoin [urlJoin [ofStr "a", ofStr "/"], ofStr "b"]
      ≠ urlJoin [ofStr "a", ofStr "/", ofStr "b"] := by decide

/-- C6 (amended): `urlJoin` is associative under segment concatenation for
segments where `b` contains at least one non-separator character and `c` is
nonempty (the counterexamples force both: an all-separator or collapsing
middle segment yields a double slash only in the flat join, and an empty
`c` lets a trailing separator run of `b` survive only in the flat join). -/
theorem C6_urlJoin_assoc_amended (a b c : Str)
    (hb : stripBothSep b ≠ []) (hc : c ≠ []) :
    urlJoin [urlJoin [a, b], c] = urlJoin [a, b, c] := by
  have hbne : b ≠ [] := by
    intro h
    subst h
    exact hb rfl
  by_cases ha : a = []
  · subst ha
    rw [urlJoin_pair_left_nil, urlJoin_triple_left_nil, urlJoin_single b hbne,
      urlJoin_pair _ c (withTrailingSep_ne_nil _) hc,
      stripTrailingSep_withTrailingSep, stripTrailingSep_idem,
      urlJoin_pair b c hbne hc]
  · rw [urlJoin_pair a b ha hbne,
      urlJoin_pair _ c (withTrailingSep_ne_nil _) hc,
      stripTrailingSep_withTrailingSep,
      urlJoin_triple a b c ha hbne hc]
    have h1 : stripTrailingSep (stripTrailingSep a ++ '/' :: stripLeadingSep b)
        = stripTrailingSep a ++ '/' :: stripBothSep b := by
      have h2 : stripTrailingSep a ++ '/' :: stripLeadingSep b
          = (stripTrailingSep a ++ ['/']) ++ stripLeadingSep b := by simp
      rw [h2, stripTrailingSep_append _ _ hb]
      simp [stripBothSep]
    rw [h1]
    simp

/-- Witness for C6's amended statement at concrete segments. -/
theorem C6_urlJoin_assoc_amended_witness :
    urlJoin [urlJoin [ofStr "a", ofStr "b"], ofStr "c"]
      = urlJoin [ofStr "a", ofStr "b", ofStr "c"] :=
  C6_urlJoin_assoc_amended (ofStr "a") (ofStr "b") (ofStr "c") (by decide) (by decide)

/-! ### C4: `insertQueryParams` merge/truncate behaviour -/

/-- Lookup after assignment finds the assigned value. -/
theorem objLookup_objInsert_self {α : Type} :
    ∀ (m : List (Str × α)) (k : Str) (v : α),
      objLookup (objInsert m k v) k = some v := by
  intro m
  induction m with
  | nil => intro k v; simp [objInsert, objLookup]
  | cons kv rest ih =>
    intro k v
    obtain ⟨k', v'⟩ := kv
    by_cases hk : k' = k
    · subst hk
      simp [objInsert, objLookup]
    · simp [objInsert, objLookup, hk, ih]

/-- Assignment of one key does not disturb lookups of other keys. -/
theorem objLookup_objInsert_other {α : Type} :
    ∀ (m : List (Str × α)) (k k' : Str) (v : α), k ≠ k' →
      objLookup (objInsert m k v) k' = objLookup m k' := by
  intro m
  induction m with
  | nil => intro k k' v hne; simp [objInsert, objLookup, hne]
  | cons kv rest ih =>
    intro k k' v hne
    obtain ⟨k0, v0⟩ := kv
    by_cases hk : k0 = k
    · subst hk
      simp [objInsert, objLookup, hne]
    · simp [objInsert, objLookup, hk, ih _ _ _ hne]

/-- Spreading an object whose keys avoid `k` does not disturb `k`. -/
theorem objLookup_objInsertAll_not_mem {α : Type} :
    ∀ (ps m : List (Str × α)) (k : Str), k ∉ ps.map Prod.fst →
      objLookup (objInsertAll m ps) k = objLookup m k := by
  intro ps
  induction ps with
  | nil => intro m k _; rfl
  | cons kv rest ih =>
    intro m k hk
    obtain ⟨k0, v0⟩ := kv
    simp only [List.map_cons, List.mem_cons] at hk
    push_neg at hk
    show objLookup (objInsertAll (objInsert m k0 v0) rest) k = _
    rw [ih _ k hk.2, objLookup_objInsert_other m k0 k v0 (fun h => hk.1 h.symm)]

/-- Spread-merge makes the right-hand object's entries win: for a payload
with distinct keys, every payload entry is found at its own value in the
merged object. -/
theorem objLookup_objInsertAll_mem {α : Type} :
    ∀ (ps m : List (Str × α)) (k : Str) (v : α),
      (ps.map Prod.fst).Nodup → (k, v) ∈ ps →
      objLookup (objInsertAll m ps) k = some v := by
  intro ps
  induction ps with
  | nil => intro m k v _ hmem; cases hmem
  | cons kv rest ih =>
    intro m k v hnd hmem
    obtain ⟨k0, v0⟩ := kv
    simp only [List.map_cons, List.nodup_cons] at hnd
    rcases List.mem_cons.mp hmem with heq | htl
    · cases heq
      show objLookup (objInsertAll (objInsert m k v) rest) k = some v
      rw [objLookup_objInsertAll_not_mem rest _ k hnd.1, objLookup_objInsert_self]
    · exact ih _ k v hnd.2 htl

/-- C4 counterexample: a truthy payload that encodes to the empty string
(`{}`) still rewrites a base URL carrying query params — a repeated key is
collapsed to its last occurrence — so the "returns baseUrl unchanged
whenever the payload … encodes to the empty string" clause fails. -/
theorem C4_counterexample_empty_payload_rewrites :
    encodeQueryParams [] {} = [] ∧
    insertQueryParams (ofStr "https://x.com/api?a=1&a=2") (some []) {}
      = .ok (ofStr "https://x.com/api?a=2") ∧
    insertQueryParams (ofStr "https://x.com/api?a=1&a=2") (some []) {}
      ≠ .ok (ofStr "https://x.com/api?a=1&a=2") := by
  exact ⟨by decide, by decide, by decide⟩

/-- C4 (amended): `insertQueryParams` returns `baseUrl` unchanged when the
payload is absent, or when the payload encodes to the empty string and the
base URL carries no query params.  When the base URL carries query params
(and is absolute — a relative one throws), the existing params are merged
with the payload (payload values win per key: for a payload with distinct
keys every payload entry keeps its own value in the merge), the base is
truncated to `origin + pathname`, and the re-encoded merged string is
appended; the concrete scenarios follow. -/
theorem C4_insertQueryParams_merge_truncate :
    (∀ (baseUrl : Str) (options : EncodingOptions),
      insertQueryParams baseUrl none options = .ok baseUrl) ∧
    (∀ (baseUrl : Str) (payload : List (Str × QVal)) (options : EncodingOptions),
      extractQueryParams baseUrl = [] → encodeQueryParams payload options = [] →
      insertQueryParams baseUrl (some payload) options = .ok baseUrl) ∧
    (∀ (baseUrl : Str) (payload : List (Str × QVal)) (options : EncodingOptions)
        (origin pathname : Str),
      extractQueryParams baseUrl ≠ [] →
      parseAbsoluteURL baseUrl = some (origin, pathname) →
      insertQueryParams baseUrl (some payload) options
        = .ok (if encodeQueryParams
              (objInsertAll
                ((extractQueryParams baseUrl).map (fun kv => (kv.1, QVal.scalar (.str kv.2))))
                payload) options = []
            then origin ++ pathname
            else origin ++ pathname ++ '?' ::
              encodeQueryParams
                (objInsertAll
                  ((extractQueryParams baseUrl).map (fun kv => (kv.1, QVal.scalar (.str kv.2))))
                  payload) options)) ∧
    (∀ (existing payload : List (Str × QVal)) (k : Str) (v : QVal),
      (payload.map Prod.fst).Nodup → (k, v) ∈ payload →
      objLookup (objInsertAll existing payload) k = some v) ∧
    insertQueryParams (ofStr "https://x.com/api?search=Bob")
        (some [(ofStr "isActive", .scalar (.bool true))]) {}
      = .ok (ofStr "https://x.com/api?search=Bob&isActive=true") ∧
    insertQueryParams (ofStr "https://x.com/api?search=Bob")
        (some [(ofStr "search", .scalar (.str (ofStr "Alice"))),
               (ofStr "isActive", .scalar (.bool true))]) {}
      = .ok (ofStr "https://x.com/api?search=Alice&isActive=true") := by
  refine ⟨?_, ?_, ?_, ?_, by decide, by decide⟩
  · intro baseUrl options
    rfl
  · intro baseUrl payload options hq henc
    simp [insertQueryParams, hq, henc, exceptBindOk]
  · intro baseUrl payload options origin pathname hq habs
    simp [insertQueryParams, hq, habs, exceptBindOk]
  · intro existing payload k v hnd hmem
    exact objLookup_objInsertAll_mem payload existing k v hnd hmem

/-- Witness for C4's amended merge/truncate component at the concrete
scenario input. -/
theorem C4_insertQueryParams_merge_truncate_witness :
    insertQueryParams (ofStr "https://x.com/api?search=Bob")
        (some [(ofStr "isActive", .scalar (.bool true))]) {}
      = .ok (if encodeQueryParams
            (objInsertAll
              ((extractQueryParams (ofStr "https://x.com/api?search=Bob")).map
                (fun kv => (kv.1, QVal.scalar (.str kv.2))))
              [(ofStr "isActive", .scalar (.bool true))]) {} = []
          then ofStr "https://x.com" ++ ofStr "/api"
          else ofStr "https://x.com" ++ ofStr "/api" ++ '?' ::
            encodeQueryParams
              (objInsertAll
                ((extractQueryParams (ofStr "https://x.com/api?search=Bob")).map
                  (fun kv => (kv.1, QVal.scalar (.str kv.2))))
                [(ofStr "isActive", .scalar (.bool true))]) {}) :=
  C4_insertQueryParams_merge_truncate.2.2.1 (ofStr "https://x.com/api?search=Bob")
    [(ofStr "isActive", .scalar (.bool true))] {} (ofStr "https://x.com") (ofStr "/api")
    (by decide) (by decide)
